import Mathlib

/-!
# Verification of the blockchain_rpc transaction workflows

Shallow embedding of the `blockchain_rpc` Python package (files
`core.py`, `web3node.py`, `swap.py`, `models.py`) and proofs about its
bounded retry loops, transaction building, receipt verification,
block-watcher counting, Curve index resolution and the arbitrage legs.

External effects (RPC calls, contract calls, sleeping) are modelled as
explicit input streams (`Nat → _`), and the side effects the claims
mention (attempts, sleeps, contract reads) are reified into traces.
-/

namespace BlockchainRpc

/-! ## models.py: TransactionStatus and TransactionResult -/

/-- `TransactionStatus` enum from `models.py`: SUCCESS = 1, FAILURE = 0,
NOT_VERIFIED = -1. -/
inductive TransactionStatus where
  | SUCCESS
  | FAILURE
  | NOT_VERIFIED
deriving DecidableEq, Repr

/-- Integer value of each `TransactionStatus` enum member. -/
def TransactionStatus.value : TransactionStatus → Int
  | .SUCCESS => 1
  | .FAILURE => 0
  | .NOT_VERIFIED => -1

/-- `TransactionResult` NamedTuple from `models.py`: a classified status
together with the transaction hash. -/
structure TransactionResult where
  status : TransactionStatus
  transactionHash : String
deriving DecidableEq, Repr

/-! ## The bounded retry loop of core.py

The same loop shape appears three times (`ListenAndSend.execute` for
send-ETH, `Arbitrage._swap` for approval and for swap):

    result = op()
    retried = 0
    while result.status != TransactionStatus.SUCCESS and retried != self.retries:
        retried += 1
        result = op()

We model the successive outcomes of the retried operation as a stream
`op : Nat → TransactionResult` (`op n` is what the n-th invocation
returns).  The loop is embedded with an explicit `fuel` argument kept
equal to `retries - retried`; `fuel = 0` is exactly the exhaustion case
`retried == retries` of the Python equality test, and the literal
conjunction `result.status != SUCCESS and retried != retries` is kept in
the recursive case.  The second component of the value counts how many
times `op` was invoked (`retried + 1`). -/
def retryLoopAux (op : Nat → TransactionResult) (retries : Nat)
    (result : TransactionResult) (retried : Nat) :
    Nat → TransactionResult × Nat
  | 0 => (result, retried + 1)
  | fuel + 1 =>
    if result.status ≠ TransactionStatus.SUCCESS ∧ retried ≠ retries then
      retryLoopAux op retries (op (retried + 1)) (retried + 1) fuel
    else
      (result, retried + 1)

/-- The bounded retry loop: initial call `op 0`, then up to `retries`
further calls while the result is not `SUCCESS`.  Returns the final
`TransactionResult` and the total number of invocations of `op`.
No exception is raised on exhaustion. -/
def retryLoop (op : Nat → TransactionResult) (retries : Nat) :
    TransactionResult × Nat :=
  retryLoopAux op retries (op 0) 0 retries

lemma retryLoopAux_all_fail (op : Nat → TransactionResult) (retries : Nat)
    (hop : ∀ n, (op n).status ≠ TransactionStatus.SUCCESS) :
    ∀ fuel retried, fuel = retries - retried → retried ≤ retries →
      retryLoopAux op retries (op retried) retried fuel = (op retries, retries + 1) := by
  intro fuel
  induction fuel with
  | zero =>
    intro retried hfuel hle
    have : retried = retries := le_antisymm hle (Nat.le_of_sub_eq_zero hfuel.symm)
    subst this
    rfl
  | succ fuel ih =>
    intro retried hfuel hle
    have hlt : retried < retries := by
      rcases lt_or_eq_of_le hle with h | h
      · exact h
      · subst h; simp [Nat.sub_self] at hfuel
    rw [retryLoopAux, if_pos ⟨hop retried, Nat.ne_of_lt hlt⟩]
    exact ih (retried + 1) (by omega) hlt

/-- C1: with retry budget `R`, an operation that never returns `SUCCESS`
is invoked exactly `R + 1` times and the loop returns the result of the
last invocation (`op R`), with no error raised on exhaustion. -/
theorem C1_retry_exhaustion (op : Nat → TransactionResult) (R : Nat)
    (hop : ∀ n, (op n).status ≠ TransactionStatus.SUCCESS) :
    retryLoop op R = (op R, R + 1) := by
  unfold retryLoop
  exact retryLoopAux_all_fail op R hop R 0 (by omega) (Nat.zero_le R)

/-- Witness for C1 at a concrete always-failing operation with `R = 2`:
three invocations, terminal result is the third outcome. -/
theorem C1_retry_exhaustion_witness :
    retryLoop (fun n => ⟨TransactionStatus.FAILURE, toString n⟩) 2 =
      (⟨TransactionStatus.FAILURE, "2"⟩, 3) := by
  have h := C1_retry_exhaustion (fun n => ⟨TransactionStatus.FAILURE, toString n⟩) 2
    (fun n => by simp)
  simpa using h

/-! ## web3node.py: Web3Node.verify_transaction

    def verify_transaction(self, transaction_hash, timeout=120):
        try:
            receipt = self._web3.eth.wait_for_transaction_receipt(transaction_hash, timeout=timeout)
            return TransactionStatus(receipt.status)
        except (TimeExhausted, requests.exceptions, ValueError) as e:
            print("Error verifying transaction: {}", e)
            return TransactionStatus.NOT_VERIFIED

The handler tuple names `requests.exceptions`, which is a *module*, not
an exception class.  CPython validates every entry of an `except` tuple
before matching and raises `TypeError` ("catching classes that do not
inherit from BaseException is not allowed") if any entry is not an
exception class; so any exception escaping the `try` body turns into a
`TypeError` here instead of being handled.  We embed the exception
objects, the entries of the handler tuple, and CPython's matching rule
explicitly. -/

/-- Python exception objects relevant to `verify_transaction`. -/
inductive PyExc where
  | timeExhausted
  | requestsRequestException
  | valueError
  | typeError
deriving DecidableEq, Repr

/-- Entries of the `except (...)` tuple in `verify_transaction`:
two genuine exception classes and one module object. -/
inductive PyClauseEntry where
  | timeExhaustedClass
  | valueErrorClass
  | requestsExceptionsModule
deriving DecidableEq, Repr

/-- CPython: only exception classes may appear in an `except` clause. -/
def PyClauseEntry.isExceptionClass : PyClauseEntry → Bool
  | .requestsExceptionsModule => false
  | _ => true

/-- Whether an entry of the clause (when it is a class) catches an
exception instance. -/
def PyClauseEntry.catches : PyClauseEntry → PyExc → Bool
  | .timeExhaustedClass, .timeExhausted => true
  | .valueErrorClass, .valueError => true
  | _, _ => false

/-- CPython semantics of matching a raised exception against an
`except (e1, e2, ...)` tuple: every entry is first checked to be an
exception class (otherwise `TypeError` is raised); only then is the
exception matched against the entries. -/
def exceptTupleMatch (clause : List PyClauseEntry) (e : PyExc) :
    Except PyExc Bool :=
  if clause.all PyClauseEntry.isExceptionClass then
    Except.ok (clause.any (fun c => c.catches e))
  else
    Except.error PyExc.typeError

/-- The literal handler tuple of `verify_transaction`:
`(TimeExhausted, requests.exceptions, ValueError)`. -/
def verifyClause : List PyClauseEntry :=
  [PyClauseEntry.timeExhaustedClass, PyClauseEntry.requestsExceptionsModule,
   PyClauseEntry.valueErrorClass]

/-- Outcome of `wait_for_transaction_receipt`: either a receipt carrying
an integer status bit, or a raised exception (e.g. `TimeExhausted` on
timeout, a requests transport error). -/
inductive ReceiptWait where
  | receipt (status : Int)
  | raised (e : PyExc)
deriving DecidableEq, Repr

/-- `TransactionStatus(value)`: calling the Python enum raises
`ValueError` when the value is not a member value. -/
def transactionStatusOfValue (v : Int) : Except PyExc TransactionStatus :=
  if v = 1 then Except.ok TransactionStatus.SUCCESS
  else if v = 0 then Except.ok TransactionStatus.FAILURE
  else if v = -1 then Except.ok TransactionStatus.NOT_VERIFIED
  else Except.error PyExc.valueError

/-- `Web3Node.verify_transaction`, as a function of the receipt-wait
outcome: the `try` body maps the receipt status through the enum, and
any raised exception is sent through the (broken) handler tuple. -/
def verify_transaction (wait : ReceiptWait) : Except PyExc TransactionStatus :=
  let body : Except PyExc TransactionStatus :=
    match wait with
    | ReceiptWait.receipt status => transactionStatusOfValue status
    | ReceiptWait.raised e => Except.error e
  match body with
  | Except.ok s => Except.ok s
  | Except.error e =>
    match exceptTupleMatch verifyClause e with
    | Except.error e2 => Except.error e2
    | Except.ok true => Except.ok TransactionStatus.NOT_VERIFIED
    | Except.ok false => Except.error e

/-- C2 (code bug): receipt status 1 and 0 are mapped to `SUCCESS` and
`FAILURE` as claimed, but on a timeout (`TimeExhausted`) or a transport
error while waiting, `verify_transaction` raises `TypeError` instead of
returning `NOT_VERIFIED`: the `except` tuple contains the module
`requests.exceptions` rather than an exception class, so CPython rejects
the clause itself. -/
theorem C2_verify_transaction_raises :
    verify_transaction (ReceiptWait.receipt 1) = Except.ok TransactionStatus.SUCCESS ∧
    verify_transaction (ReceiptWait.receipt 0) = Except.ok TransactionStatus.FAILURE ∧
    verify_transaction (ReceiptWait.raised PyExc.timeExhausted) =
      Except.error PyExc.typeError ∧
    verify_transaction (ReceiptWait.raised PyExc.requestsRequestException) =
      Except.error PyExc.typeError := by
  refine ⟨rfl, rfl, rfl, rfl⟩

/-! ## web3node.py: Web3Node._initialize_web3 (connection setup)

    self._web3 = Web3(Web3.HTTPProvider(self.rpc_endpoint))
    retried = 0
    while not self._web3.is_connected() and retried != self.retries:
        print("Web3 connection failed. Retrying..")
        time.sleep(1)
        retried += 1
        self._web3 = Web3(Web3.HTTPProvider(self.rpc_endpoint))
    if not self._web3.is_connected():
        raise Web3ConnectionException("Unable to connect to RPC endpoint")

`conn i` tells whether the instance built by the i-th connection attempt
reports connected.  The trace records each attempt and each 1-time-unit
sleep; as in `retryLoopAux`, `fuel` is kept equal to `retries - retried`
so that `fuel = 0` is the exhaustion case `retried == retries`. -/

/-- Events of the connection-setup loop. -/
inductive InitEvent where
  | attempt (i : Nat)
  | sleep (units : Nat)
deriving DecidableEq, Repr

/-- Single-constructor model of `Web3ConnectionException`. -/
inductive Web3ConnectionException where
  | unableToConnect
deriving DecidableEq, Repr

/-- The `while` loop of `_initialize_web3`; returns the events emitted by
the loop body and the index of the last attempt made. -/
def initLoopAux (conn : Nat → Bool) (retries : Nat) (retried : Nat) :
    Nat → List InitEvent × Nat
  | 0 => ([], retried)
  | fuel + 1 =>
    if ¬ conn retried ∧ retried ≠ retries then
      let r := initLoopAux conn retries (retried + 1) fuel
      (InitEvent.sleep 1 :: InitEvent.attempt (retried + 1) :: r.1, r.2)
    else
      ([], retried)

/-- `Web3Node._initialize_web3`: initial attempt, bounded retry with a
1-time-unit sleep before each further attempt, and a final raise of
`Web3ConnectionException` if the last attempt is still unconnected. -/
def initialize_web3 (conn : Nat → Bool) (retries : Nat) :
    List InitEvent × Except Web3ConnectionException Unit :=
  let r := initLoopAux conn retries 0 retries
  (InitEvent.attempt 0 :: r.1,
   if conn r.2 then Except.ok () else Except.error Web3ConnectionException.unableToConnect)

/-- The event schedule of `fuel` failed retries following attempt
`retried`: a 1-unit sleep before each of the attempts
`retried + 1, ..., retried + fuel`. -/
def retrySchedule (retried : Nat) : Nat → List InitEvent
  | 0 => []
  | fuel + 1 =>
    InitEvent.sleep 1 :: InitEvent.attempt (retried + 1) ::
      retrySchedule (retried + 1) fuel

lemma initLoopAux_all_fail (conn : Nat → Bool) (retries : Nat)
    (hconn : ∀ i, i ≤ retries → conn i = false) :
    ∀ fuel retried, fuel = retries - retried → retried ≤ retries →
      initLoopAux conn retries retried fuel = (retrySchedule retried fuel, retries) := by
  intro fuel
  induction fuel with
  | zero =>
    intro retried hfuel hle
    have : retried = retries := le_antisymm hle (Nat.le_of_sub_eq_zero hfuel.symm)
    subst this
    simp [initLoopAux, retrySchedule]
  | succ fuel ih =>
    intro retried hfuel hle
    have hlt : retried < retries := by omega
    rw [initLoopAux, if_pos ⟨by simp [hconn retried hle], Nat.ne_of_lt hlt⟩,
      ih (retried + 1) (by omega) hlt]
    rfl

lemma initLoopAux_exit_connected (conn : Nat → Bool) (retries : Nat) :
    ∀ fuel retried, fuel = retries - retried → retried ≤ retries →
      (∃ i, retried ≤ i ∧ i ≤ retries ∧ conn i = true) →
      conn (initLoopAux conn retries retried fuel).2 = true := by
  intro fuel
  induction fuel with
  | zero =>
    intro retried hfuel hle hex
    have : retried = retries := le_antisymm hle (Nat.le_of_sub_eq_zero hfuel.symm)
    subst this
    obtain ⟨i, h1, h2, h3⟩ := hex
    have : i = retried := le_antisymm h2 h1
    subst this
    simpa [initLoopAux] using h3
  | succ fuel ih =>
    intro retried hfuel hle hex
    by_cases hc : conn retried
    · rw [initLoopAux, if_neg (by simp [hc])]
      simpa using hc
    · have hlt : retried < retries := by omega
      rw [initLoopAux, if_pos ⟨by simp [hc], Nat.ne_of_lt hlt⟩]
      apply ih (retried + 1) (by omega) hlt
      obtain ⟨i, h1, h2, h3⟩ := hex
      have : i ≠ retried := by
        intro h; rw [h] at h3; simp [h3] at hc
      exact ⟨i, by omega, h2, h3⟩

/-- C7: connection setup never raises when some attempt among
`0, ..., R` connects; if no attempt connects, the emitted events are the
initial attempt followed by `R` (sleep 1, attempt) pairs — so exactly
`R + 1` attempts with a 1-time-unit backoff between consecutive
attempts — and `Web3ConnectionException` is raised; in general the
setup raises if and only if all `R + 1` attempts fail to connect. -/
theorem C7_connection_setup (conn : Nat → Bool) (R : Nat) :
    ((∀ i, i ≤ R → conn i = false) →
      initialize_web3 conn R =
        (InitEvent.attempt 0 :: retrySchedule 0 R,
         Except.error Web3ConnectionException.unableToConnect)) ∧
    ((initialize_web3 conn R).2 =
        Except.error Web3ConnectionException.unableToConnect ↔
      ∀ i, i ≤ R → conn i = false) := by
  constructor
  · intro hconn
    unfold initialize_web3
    rw [initLoopAux_all_fail conn R hconn R 0 (by omega) (Nat.zero_le R)]
    simp [hconn R (le_refl R)]
  · constructor
    · intro herr
      by_contra hex
      push_neg at hex
      obtain ⟨i, hiR, hi⟩ := hex
      have hc : conn (initLoopAux conn R 0 R).2 = true := by
        apply initLoopAux_exit_connected conn R R 0 (by omega) (Nat.zero_le R)
        exact ⟨i, Nat.zero_le i, hiR, by simpa using hi⟩
      unfold initialize_web3 at herr
      simp only [hc, if_true] at herr
      exact Except.noConfusion herr
    · intro hconn
      unfold initialize_web3
      rw [initLoopAux_all_fail conn R hconn R 0 (by omega) (Nat.zero_le R)]
      simp [hconn R (le_refl R)]

/-- Witness for C7 at `R = 2` with an endpoint that never connects:
three attempts, two 1-unit sleeps, `Web3ConnectionException` raised. -/
theorem C7_connection_setup_witness :
    initialize_web3 (fun _ => false) 2 =
      ([InitEvent.attempt 0, InitEvent.sleep 1, InitEvent.attempt 1,
        InitEvent.sleep 1, InitEvent.attempt 2],
       Except.error Web3ConnectionException.unableToConnect) := by
  have h := (C7_connection_setup (fun _ => false) 2).1 (fun i _ => rfl)
  have hsched : retrySchedule 0 2 =
      [InitEvent.sleep 1, InitEvent.attempt 1, InitEvent.sleep 1, InitEvent.attempt 2] := rfl
  rw [h, hsched]

/-! ## web3node.py: get_gas_fees and build_transaction_data

Read-only chain state consumed by the builder: the sender's transaction
count, the latest block's `baseFeePerGas`, the priority-fee oracle
(`eth.max_priority_fee`) and the chain id. -/

/-- Read-only chain queries used by `Web3Node`. -/
structure ChainState where
  txCount : Int
  baseFeePerGas : Int
  maxPriorityFee : Int
  chainId : Int

/-- `GasFees` NamedTuple from `models.py` (field order as declared). -/
structure GasFees where
  maxPriorityFeePerGas : Int
  maxFeePerGas : Int
deriving DecidableEq, Repr

/-- `Web3Node.get_gas_fees`:

    latest_block = self._web3.eth.get_block('latest')
    maxPriorityFeePerGas = self._web3.eth.max_priority_fee
    base_fee = latest_block['baseFeePerGas']
    maxFeePerGas = (2 * base_fee) + maxPriorityFeePerGas
    return GasFees(maxPriorityFeePerGas, maxFeePerGas)
-/
def get_gas_fees (c : ChainState) : GasFees :=
  { maxPriorityFeePerGas := c.maxPriorityFee,
    maxFeePerGas := 2 * c.baseFeePerGas + c.maxPriorityFee }

/-- Dynamically typed Python value supplied as a keyword argument (the
builder receives `**override_parameters`). -/
inductive PyVal where
  | vint (n : Int)
  | vstr (s : String)
  | vnone
deriving DecidableEq, Repr

/-- The keyword arguments of `build_transaction_data`, restricted to the
field names of the `TransactionData` pydantic template (extra keys are
ignored by the template and play no role).  `Option.none` means the key
is absent from the override set. -/
structure OverrideParams where
  nonce : Option PyVal := Option.none
  maxFeePerGas : Option PyVal := Option.none
  maxPriorityFeePerGas : Option PyVal := Option.none
  chainId : Option PyVal := Option.none
  value : Option PyVal := Option.none
  gas : Option PyVal := Option.none
  toAddr : Option PyVal := Option.none
  callData : Option PyVal := Option.none
deriving DecidableEq, Repr

/-- The filling stage of `Web3Node.build_transaction_data`: the absent
fields among nonce / fee fields / chainId are filled from chain state;
`get_gas_fees` is invoked once if either fee field is absent, and only
the absent fee field(s) are substituted. -/
def fill_transaction_fields (c : ChainState) (ps : OverrideParams) : OverrideParams :=
  let ps := if ps.nonce.isNone then
      { ps with nonce := some (PyVal.vint c.txCount) } else ps
  let ps := if ps.maxFeePerGas.isNone || ps.maxPriorityFeePerGas.isNone then
      let gp := get_gas_fees c
      let ps := if ps.maxFeePerGas.isNone then
          { ps with maxFeePerGas := some (PyVal.vint gp.maxFeePerGas) } else ps
      if ps.maxPriorityFeePerGas.isNone then
        { ps with maxPriorityFeePerGas := some (PyVal.vint gp.maxPriorityFeePerGas) }
      else ps
    else ps
  if ps.chainId.isNone then
    { ps with chainId := some (PyVal.vint c.chainId) } else ps

/-- The validated `TransactionData` pydantic template from `models.py`,
after `to_dictionary` (`exclude_none=True`): the four required integer
fields, `value`/`gas` with defaults `0`/`400000`, optional `to`/`data`
(absent from the dictionary when `None`). -/
structure TransactionData where
  nonce : Int
  maxFeePerGas : Int
  maxPriorityFeePerGas : Int
  chainId : Int
  value : Option Int
  gas : Option Int
  toAddr : Option String
  callData : Option String
deriving DecidableEq, Repr

/-- A required `int` field of the template: absent or non-integer values
fail validation (the embedding models pydantic type checks strictly,
without its string-to-int coercion, which no caller exercises). -/
def reqIntField : Option PyVal → Option Int
  | some (PyVal.vint n) => some n
  | _ => Option.none

/-- An `int | None` field with a default: absent yields the default,
`None` yields `None`, non-integers fail validation. -/
def optIntField (dflt : Option Int) : Option PyVal → Option (Option Int)
  | Option.none => some dflt
  | some (PyVal.vint n) => some (some n)
  | some PyVal.vnone => some Option.none
  | some (PyVal.vstr _) => Option.none

/-- A `str | None` field with default `None`. -/
def optStrField : Option PyVal → Option (Option String)
  | Option.none => some Option.none
  | some (PyVal.vstr s) => some (some s)
  | some PyVal.vnone => some Option.none
  | some (PyVal.vint _) => Option.none

/-- Validation of the assembled fields against the `TransactionData`
template; `Option.none` is a pydantic `ValidationError`. -/
def validateTransactionData (ps : OverrideParams) : Option TransactionData :=
  match reqIntField ps.nonce, reqIntField ps.maxFeePerGas,
      reqIntField ps.maxPriorityFeePerGas, reqIntField ps.chainId,
      optIntField (some 0) ps.value, optIntField (some 400000) ps.gas,
      optStrField ps.toAddr, optStrField ps.callData with
  | some n, some mf, some mp, some ci, some v, some g, some t, some d =>
    some ⟨n, mf, mp, ci, v, g, t, d⟩
  | _, _, _, _, _, _, _, _ => Option.none

/-- Single-constructor model of `TransactionException`
(raised when the pydantic validation fails, `web3node.py` line 91-93). -/
inductive TransactionException where
  | buildError
deriving DecidableEq, Repr

/-- `Web3Node.build_transaction_data`: fill the absent fields, then
validate; a `ValidationError` is re-raised as `TransactionException`. -/
def build_transaction_data (c : ChainState) (ps : OverrideParams) :
    Except TransactionException TransactionData :=
  match validateTransactionData (fill_transaction_fields c ps) with
  | some tx => Except.ok tx
  | Option.none => Except.error TransactionException.buildError

lemma fill_nonce (c : ChainState) (ps : OverrideParams) :
    (fill_transaction_fields c ps).nonce =
      (if ps.nonce.isNone then some (PyVal.vint c.txCount) else ps.nonce) := by
  unfold fill_transaction_fields
  rcases hn : ps.nonce with _ | v <;>
    rcases hf : ps.maxFeePerGas with _ | f <;>
      rcases hp : ps.maxPriorityFeePerGas with _ | p <;>
        rcases hc : ps.chainId with _ | ci <;>
          simp [hn, hf, hp, hc]

lemma fill_maxFee (c : ChainState) (ps : OverrideParams) :
    (fill_transaction_fields c ps).maxFeePerGas =
      (if ps.maxFeePerGas.isNone then
        some (PyVal.vint (2 * c.baseFeePerGas + c.maxPriorityFee))
      else ps.maxFeePerGas) := by
  unfold fill_transaction_fields get_gas_fees
  rcases hn : ps.nonce with _ | v <;>
    rcases hf : ps.maxFeePerGas with _ | f <;>
      rcases hp : ps.maxPriorityFeePerGas with _ | p <;>
        rcases hc : ps.chainId with _ | ci <;>
          simp [hn, hf, hp, hc]

lemma fill_maxPriority (c : ChainState) (ps : OverrideParams) :
    (fill_transaction_fields c ps).maxPriorityFeePerGas =
      (if ps.maxPriorityFeePerGas.isNone then some (PyVal.vint c.maxPriorityFee)
      else ps.maxPriorityFeePerGas) := by
  unfold fill_transaction_fields get_gas_fees
  rcases hn : ps.nonce with _ | v <;>
    rcases hf : ps.maxFeePerGas with _ | f <;>
      rcases hp : ps.maxPriorityFeePerGas with _ | p <;>
        rcases hc : ps.chainId with _ | ci <;>
          simp [hn, hf, hp, hc]

lemma fill_chainId (c : ChainState) (ps : OverrideParams) :
    (fill_transaction_fields c ps).chainId =
      (if ps.chainId.isNone then some (PyVal.vint c.chainId) else ps.chainId) := by
  unfold fill_transaction_fields
  rcases hn : ps.nonce with _ | v <;>
    rcases hf : ps.maxFeePerGas with _ | f <;>
      rcases hp : ps.maxPriorityFeePerGas with _ | p <;>
        rcases hc : ps.chainId with _ | ci <;>
          simp [hn, hf, hp, hc]

lemma reqIntField_eq_some {o : Option PyVal} {n : Int}
    (h : reqIntField o = some n) : o = some (PyVal.vint n) := by
  rcases o with _ | v
  · simp [reqIntField] at h
  · rcases v with m | s | _
    · simp [reqIntField] at h
      subst h
      rfl
    · simp [reqIntField] at h
    · simp [reqIntField] at h

lemma validate_fields (ps : OverrideParams) (tx : TransactionData)
    (h : validateTransactionData ps = some tx) :
    ps.nonce = some (PyVal.vint tx.nonce) ∧
    ps.maxFeePerGas = some (PyVal.vint tx.maxFeePerGas) ∧
    ps.maxPriorityFeePerGas = some (PyVal.vint tx.maxPriorityFeePerGas) ∧
    ps.chainId = some (PyVal.vint tx.chainId) := by
  unfold validateTransactionData at h
  rcases hn : reqIntField ps.nonce with _ | n <;> rw [hn] at h
  · exact absurd h (by simp)
  rcases hf : reqIntField ps.maxFeePerGas with _ | f <;> rw [hf] at h
  · exact absurd h (by simp)
  rcases hp : reqIntField ps.maxPriorityFeePerGas with _ | p <;> rw [hp] at h
  · exact absurd h (by simp)
  rcases hc : reqIntField ps.chainId with _ | ci <;> rw [hc] at h
  · exact absurd h (by simp)
  rcases hv : optIntField (some 0) ps.value with _ | v <;> rw [hv] at h
  · exact absurd h (by simp)
  rcases hg : optIntField (some 400000) ps.gas with _ | g <;> rw [hg] at h
  · exact absurd h (by simp)
  rcases ht : optStrField ps.toAddr with _ | t <;> rw [ht] at h
  · exact absurd h (by simp)
  rcases hd : optStrField ps.callData with _ | d <;> rw [hd] at h
  · exact absurd h (by simp)
  simp only [Option.some.injEq] at h
  subst h
  exact ⟨reqIntField_eq_some hn, reqIntField_eq_some hf,
    reqIntField_eq_some hp, reqIntField_eq_some hc⟩

lemma build_ok_fields (c : ChainState) (ps : OverrideParams) (tx : TransactionData)
    (h : build_transaction_data c ps = Except.ok tx) :
    (ps.nonce = Option.none → tx.nonce = c.txCount) ∧
    (∀ n, ps.nonce = some (PyVal.vint n) → tx.nonce = n) ∧
    (ps.maxFeePerGas = Option.none →
      tx.maxFeePerGas = 2 * c.baseFeePerGas + c.maxPriorityFee) ∧
    (∀ n, ps.maxFeePerGas = some (PyVal.vint n) → tx.maxFeePerGas = n) ∧
    (ps.maxPriorityFeePerGas = Option.none →
      tx.maxPriorityFeePerGas = c.maxPriorityFee) ∧
    (∀ n, ps.maxPriorityFeePerGas = some (PyVal.vint n) →
      tx.maxPriorityFeePerGas = n) ∧
    (ps.chainId = Option.none → tx.chainId = c.chainId) ∧
    (∀ n, ps.chainId = some (PyVal.vint n) → tx.chainId = n) := by
  unfold build_transaction_data at h
  rcases hv : validateTransactionData (fill_transaction_fields c ps) with _ | tx2 <;>
    rw [hv] at h
  · exact absurd h (by simp)
  have htx : tx2 = tx := by
    simpa using h
  subst htx
  obtain ⟨e1, e2, e3, e4⟩ := validate_fields _ _ hv
  rw [fill_nonce] at e1
  rw [fill_maxFee] at e2
  rw [fill_maxPriority] at e3
  rw [fill_chainId] at e4
  refine ⟨?_, ?_, ?_, ?_, ?_, ?_, ?_, ?_⟩
  · intro habs; rw [habs] at e1; simpa using e1.symm
  · intro n hn; rw [hn] at e1; simpa using e1.symm
  · intro habs; rw [habs] at e2; simpa using e2.symm
  · intro n hn; rw [hn] at e2; simpa using e2.symm
  · intro habs; rw [habs] at e3; simpa using e3.symm
  · intro n hn; rw [hn] at e3; simpa using e3.symm
  · intro habs; rw [habs] at e4; simpa using e4.symm
  · intro n hn; rw [hn] at e4; simpa using e4.symm

/-- C5: the builder fills exactly the absent fields among nonce, the two
fee fields and chainId (nonce from the sender's transaction count,
chainId from the chain, the fees from the latest base fee and the
priority-fee oracle), leaves every explicitly supplied field untouched —
in particular, a missing fee field is substituted with the freshly
recomputed value even when the other fee field was supplied — and a
validation failure of the assembled fields raises the build error. -/
theorem C5_builder_fills_missing_fields (c : ChainState) (ps : OverrideParams) :
    (∀ tx, build_transaction_data c ps = Except.ok tx →
      (ps.nonce = Option.none → tx.nonce = c.txCount) ∧
      (∀ n, ps.nonce = some (PyVal.vint n) → tx.nonce = n) ∧
      (ps.maxFeePerGas = Option.none →
        tx.maxFeePerGas = 2 * c.baseFeePerGas + c.maxPriorityFee) ∧
      (∀ n, ps.maxFeePerGas = some (PyVal.vint n) → tx.maxFeePerGas = n) ∧
      (ps.maxPriorityFeePerGas = Option.none →
        tx.maxPriorityFeePerGas = c.maxPriorityFee) ∧
      (∀ n, ps.maxPriorityFeePerGas = some (PyVal.vint n) →
        tx.maxPriorityFeePerGas = n) ∧
      (ps.chainId = Option.none → tx.chainId = c.chainId) ∧
      (∀ n, ps.chainId = some (PyVal.vint n) → tx.chainId = n)) ∧
    (validateTransactionData (fill_transaction_fields c ps) = Option.none →
      build_transaction_data c ps = Except.error TransactionException.buildError) := by
  constructor
  · intro tx h
    exact build_ok_fields c ps tx h
  · intro hfail
    unfold build_transaction_data
    rw [hfail]

/-- Witness for C5: chain state (7, 10, 3, 42), overrides supplying only
`maxPriorityFeePerGas = 99`: nonce, chainId and `maxFeePerGas` are
filled from the chain (`maxFeePerGas = 2*10 + 3`, from the oracle value,
not from the supplied 99), while the supplied priority fee is kept; and
a string-valued `value` override fails validation with the build error. -/
theorem C5_builder_fills_missing_fields_witness :
    (({ txCount := 7, baseFeePerGas := 10, maxPriorityFee := 3, chainId := 42 } :
        ChainState).txCount = 7 ∧
      build_transaction_data
        { txCount := 7, baseFeePerGas := 10, maxPriorityFee := 3, chainId := 42 }
        { maxPriorityFeePerGas := some (PyVal.vint 99) } =
        Except.ok ⟨7, 23, 99, 42, some 0, some 400000, Option.none, Option.none⟩) ∧
    build_transaction_data
      { txCount := 7, baseFeePerGas := 10, maxPriorityFee := 3, chainId := 42 }
      { value := some (PyVal.vstr "oops") } =
      Except.error TransactionException.buildError := by
  refine ⟨⟨rfl, ?_⟩, ?_⟩
  · have h := (C5_builder_fills_missing_fields
      { txCount := 7, baseFeePerGas := 10, maxPriorityFee := 3, chainId := 42 }
      { maxPriorityFeePerGas := some (PyVal.vint 99) }).1
      ⟨7, 23, 99, 42, some 0, some 400000, Option.none, Option.none⟩ rfl
    exact rfl
  · exact (C5_builder_fills_missing_fields
      { txCount := 7, baseFeePerGas := 10, maxPriorityFee := 3, chainId := 42 }
      { value := some (PyVal.vstr "oops") }).2 rfl

/-- C9: the derived gas fees satisfy
`maxFeePerGas = 2 * baseFeePerGas + maxPriorityFeePerGas` with the
priority fee taken from the chain's oracle; and the builder substitutes
exactly these recomputed values for fee fields that are not explicitly
overridden, while overridden fee fields keep their supplied values. -/
theorem C9_gas_fee_formula (c : ChainState) :
    ((get_gas_fees c).maxFeePerGas =
      2 * c.baseFeePerGas + (get_gas_fees c).maxPriorityFeePerGas) ∧
    ((get_gas_fees c).maxPriorityFeePerGas = c.maxPriorityFee) ∧
    (∀ ps tx, build_transaction_data c ps = Except.ok tx →
      (ps.maxFeePerGas = Option.none →
        tx.maxFeePerGas = (get_gas_fees c).maxFeePerGas) ∧
      (ps.maxPriorityFeePerGas = Option.none →
        tx.maxPriorityFeePerGas = (get_gas_fees c).maxPriorityFeePerGas) ∧
      (∀ n, ps.maxFeePerGas = some (PyVal.vint n) → tx.maxFeePerGas = n) ∧
      (∀ n, ps.maxPriorityFeePerGas = some (PyVal.vint n) →
        tx.maxPriorityFeePerGas = n)) := by
  refine ⟨rfl, rfl, ?_⟩
  intro ps tx h
  obtain ⟨_, _, h3, h4, h5, h6, _, _⟩ := build_ok_fields c ps tx h
  exact ⟨h3, h5, h4, h6⟩

/-- Witness for C9: with base fee 10 and oracle priority fee 3, a build
with no fee overrides produces `maxFeePerGas = 23 = 2*10 + 3`. -/
theorem C9_gas_fee_formula_witness :
    get_gas_fees { txCount := 7, baseFeePerGas := 10, maxPriorityFee := 3, chainId := 42 } =
      { maxPriorityFeePerGas := 3, maxFeePerGas := 23 } ∧
    (build_transaction_data
        { txCount := 7, baseFeePerGas := 10, maxPriorityFee := 3, chainId := 42 }
        {} = Except.ok ⟨7, 23, 3, 42, some 0, some 400000, Option.none, Option.none⟩) := by
  constructor
  · exact rfl
  · have h := (C9_gas_fee_formula
      { txCount := 7, baseFeePerGas := 10, maxPriorityFee := 3, chainId := 42 }).2.2
      {} ⟨7, 23, 3, 42, some 0, some 400000, Option.none, Option.none⟩ rfl
    exact rfl

/-! ## core.py: ListenAndSend block-watcher counting, and
models.py: ListenAndSendConfig.validate_num_blocks

    latest_number = local_web3.eth.get_block("latest").number
    if latest_number != current_number:
        current_number = latest_number
        block_count = (block_count + 1) % self.num_blocks
        if block_count == 0:
            ... send ETH (retry-wrapped) ...

The observed sequence of `get_block("latest").number` values is the
input; a "send" event is entering the `block_count == 0` branch. -/

/-- Python `ZeroDivisionError`, raised by `%` with modulus 0. -/
inductive PyZeroDivisionError where
  | integerModuloByZero
deriving DecidableEq, Repr

/-- Python `%` on the watcher's counter (both operands non-negative). -/
def pymod (a n : Nat) : Except PyZeroDivisionError Nat :=
  if n = 0 then Except.error PyZeroDivisionError.integerModuloByZero
  else Except.ok (a % n)

/-- Loop state of `ListenAndSend.execute`: the remembered block height
and the modulo-N block counter. -/
structure WatchState where
  current : Int
  count : Nat
deriving DecidableEq, Repr

/-- One poll iteration of the watcher on an observed latest height:
no-op when the height is unchanged; otherwise remember the height,
advance the counter modulo `numBlocks`, and report whether the send
branch is entered (counter wrapped to 0). -/
def watch_step (numBlocks : Nat) (s : WatchState) (latest : Int) :
    Except PyZeroDivisionError (WatchState × Bool) :=
  if latest ≠ s.current then
    match pymod (s.count + 1) numBlocks with
    | Except.ok c => Except.ok (⟨latest, c⟩, c = 0)
    | Except.error e => Except.error e
  else
    Except.ok (s, false)

/-- Running the watcher over a list of observed heights, counting the
send events. -/
def watch_run (numBlocks : Nat) : WatchState → List Int →
    Except PyZeroDivisionError (WatchState × Nat)
  | s, [] => Except.ok (s, 0)
  | s, x :: xs =>
    match watch_step numBlocks s x with
    | Except.ok (s1, sent) =>
      match watch_run numBlocks s1 xs with
      | Except.ok (s2, n) => Except.ok (s2, (if sent then 1 else 0) + n)
      | Except.error e => Except.error e
    | Except.error e => Except.error e

/-- Number of height changes in an observation list, against a starting
height. -/
def heightChanges (cur : Int) : List Int → Nat
  | [] => 0
  | x :: xs => if x ≠ cur then heightChanges x xs + 1 else heightChanges cur xs

/-- Counter value after `k` height changes starting from counter `c`. -/
def counterAfter (N : Nat) (c : Nat) : Nat → Nat
  | 0 => c
  | k + 1 => counterAfter N ((c + 1) % N) k

/-- Send events fired during `k` height changes starting from counter
`c`. -/
def sendsAfter (N : Nat) (c : Nat) : Nat → Nat
  | 0 => 0
  | k + 1 => (if (c + 1) % N = 0 then 1 else 0) + sendsAfter N ((c + 1) % N) k

lemma watch_run_characterization (N : Nat) (hN : 1 ≤ N) :
    ∀ (obs : List Int) (cur : Int) (c : Nat), ∃ fc,
      watch_run N ⟨cur, c⟩ obs =
        Except.ok (⟨fc, counterAfter N c (heightChanges cur obs)⟩,
          sendsAfter N c (heightChanges cur obs)) := by
  have hN0 : ¬ N = 0 := by omega
  intro obs
  induction obs with
  | nil =>
    intro cur c
    exact ⟨cur, rfl⟩
  | cons x xs ih =>
    intro cur c
    by_cases hx : x = cur
    · subst hx
      obtain ⟨fc, hrun⟩ := ih x c
      have hstep : watch_step N ⟨x, c⟩ x = Except.ok (⟨x, c⟩, false) := by
        rw [watch_step, if_neg (by simp)]
      refine ⟨fc, ?_⟩
      simp only [watch_run, hstep, hrun, heightChanges]
      simp
    · obtain ⟨fc, hrun⟩ := ih x ((c + 1) % N)
      have hstep : watch_step N ⟨cur, c⟩ x =
          Except.ok (⟨x, (c + 1) % N⟩, decide ((c + 1) % N = 0)) := by
        rw [watch_step, if_pos hx]
        simp [pymod, hN0]
      refine ⟨fc, ?_⟩
      simp only [watch_run, hstep, hrun, heightChanges, if_pos hx,
        counterAfter, sendsAfter]
      by_cases h0 : (c + 1) % N = 0 <;> simp [h0]

/-- `ListenAndSendConfig.validate_num_blocks` from `models.py`: rejects
exactly the negative values. -/
def validate_num_blocks (v : Int) : Except String Int :=
  if v < 0 then Except.error "num_blocks cannot be negative" else Except.ok v

/-- C8: each poll iteration leaves the state untouched when the height
is unchanged, and on a height change advances the counter once modulo
`numBlocks`, firing a send exactly when the counter wraps to 0; with
`num_blocks = 3`, after observing 3 height changes from a fresh counter,
exactly one transfer send is triggered and the counter is back at 0. -/
theorem C8_block_watcher (N : Nat) (hN : 1 ≤ N) :
    (∀ s latest, latest = s.current → watch_step N s latest = Except.ok (s, false)) ∧
    (∀ s latest, latest ≠ s.current →
      watch_step N s latest =
        Except.ok ((⟨latest, (s.count + 1) % N⟩ : WatchState),
          decide ((s.count + 1) % N = 0))) ∧
    (∀ (cur : Int) (obs : List Int), heightChanges cur obs = 3 → ∃ fc,
      watch_run 3 ⟨cur, 0⟩ obs = Except.ok (⟨fc, 0⟩, 1)) := by
  have hN0 : ¬ N = 0 := by omega
  have hpm : ∀ a, pymod a N = Except.ok (a % N) := by
    intro a; simp [pymod, hN0]
  refine ⟨?_, ?_, ?_⟩
  · intro s latest hlat
    rw [watch_step, if_neg (by simp [hlat])]
  · intro s latest hlat
    rw [watch_step, if_pos hlat, hpm]
  · intro cur obs hchanges
    obtain ⟨fc, hrun⟩ := watch_run_characterization 3 (by omega) obs cur 0
    rw [hchanges] at hrun
    exact ⟨fc, by simpa [counterAfter, sendsAfter] using hrun⟩

/-- Witness for C8 with `num_blocks = 3` and observed heights
`[6, 7, 8, 8]` from start height 5 (3 distinct increases, one repeat):
one send, counter back at 0. -/
theorem C8_block_watcher_witness :
    watch_step 3 ⟨5, 0⟩ 5 = Except.ok (⟨5, 0⟩, false) ∧
    watch_step 3 ⟨5, 2⟩ 6 = Except.ok (⟨6, 0⟩, true) ∧
    (∃ fc, watch_run 3 ⟨5, 0⟩ [6, 7, 8, 8] = Except.ok (⟨fc, 0⟩, 1)) := by
  refine ⟨(C8_block_watcher 3 (by omega)).1 ⟨5, 0⟩ 5 rfl, ?_, ?_⟩
  · have h := (C8_block_watcher 3 (by omega)).2.1 ⟨5, 2⟩ 6 (by decide)
    simpa using h
  · exact (C8_block_watcher 3 (by omega)).2.2 5 [6, 7, 8, 8] (by decide)

/-- C10: the configuration validator rejects exactly the negative
`num_blocks` values, so 0 is accepted at construction; the counter
update `(block_count + 1) % num_blocks` of the watcher succeeds for
every state and changed height if and only if `num_blocks ≥ 1` (with
`num_blocks = 0` the first height change raises `ZeroDivisionError`). -/
theorem C10_num_blocks_zero_accepted_update_needs_positive :
    validate_num_blocks 0 = Except.ok 0 ∧
    (∀ v : Int, (validate_num_blocks v = Except.ok v ↔ 0 ≤ v)) ∧
    (∀ N : Nat, (∀ s latest, latest ≠ s.current →
        ∃ r, watch_step N s latest = Except.ok r) ↔ 1 ≤ N) := by
  refine ⟨rfl, ?_, ?_⟩
  · intro v
    constructor
    · intro h
      by_contra hneg
      push_neg at hneg
      rw [validate_num_blocks, if_pos hneg] at h
      exact Except.noConfusion h
    · intro h
      rw [validate_num_blocks, if_neg (by omega)]
  · intro N
    constructor
    · intro h
      by_contra hN
      have hN0 : N = 0 := by omega
      subst hN0
      obtain ⟨r, hr⟩ := h ⟨0, 0⟩ 1 (by decide)
      simp [watch_step, pymod] at hr
    · intro hN s latest hlat
      have hN0 : ¬ N = 0 := by omega
      have hpm : pymod (s.count + 1) N = Except.ok ((s.count + 1) % N) := by
        simp [pymod, hN0]
      refine ⟨((⟨latest, (s.count + 1) % N⟩ : WatchState),
        decide ((s.count + 1) % N = 0)), ?_⟩
      rw [watch_step, if_pos hlat, hpm]

/-- Witness for C10: `num_blocks = 0` passes validation, yet the very
first height change then raises `ZeroDivisionError`, while with
`num_blocks = 1` the same step succeeds. -/
theorem C10_num_blocks_witness :
    validate_num_blocks 0 = Except.ok 0 ∧
    watch_step 0 ⟨5, 0⟩ 6 = Except.error PyZeroDivisionError.integerModuloByZero ∧
    (∃ r, watch_step 1 ⟨5, 0⟩ 6 = Except.ok r) := by
  refine ⟨C10_num_blocks_zero_accepted_update_needs_positive.1, rfl, ?_⟩
  exact (C10_num_blocks_zero_accepted_update_needs_positive.2.2 1).mpr
    (by omega) ⟨5, 0⟩ 6 (by decide)

/-! ## swap.py: Curve index resolution and swap preparation

`Curve.get_coin_indexes` reads `N_COINS` from the pool contract, looks
up `coins(i)` for every slot `i` in `range(num_coins)` (the per-slot
lookups are gathered concurrently but `asyncio.gather` preserves
submission order), keeps the slots whose address is in the requested
coin set, and merges the per-slot singleton dicts in slot order.  The
pool is modelled as the list of its slot addresses. -/

/-- `Curve._lookup_coin` for slot `i`: the singleton `(address, i)` when
the slot's address is in the requested coin set, else nothing. -/
def lookup_coin (pool : List String) (i : Nat) (coinSet : List String) :
    List (String × Nat) :=
  match pool.get? i with
  | some a => if a ∈ coinSet then [(a, i)] else []
  | Option.none => []

/-- Python-dict membership for the merged index mapping. -/
def dcontains (d : List (String × Nat)) (k : String) : Bool :=
  d.any (fun p => p.1 = k)

/-- Python-dict lookup for the merged index mapping. -/
def dget (d : List (String × Nat)) (k : String) : Option Nat :=
  (d.find? (fun p => p.1 = k)).map Prod.snd

/-- Python-dict assignment: update the value of an existing key, or
append a new binding. -/
def dset (d : List (String × Nat)) (k : String) (v : Nat) : List (String × Nat) :=
  if dcontains d k then d.map (fun p => if p.1 = k then (k, v) else p)
  else d ++ [(k, v)]

/-- The dict-comprehension merge of `Curve.get_coin_indexes`, folding
the slot lookups in slot order over the pool; `i` is the index of the
first slot of `slots` within the full pool. -/
def gather_coin_slots (coinSet : List String) :
    List String → Nat → List (String × Nat) → List (String × Nat)
  | [], _, acc => acc
  | a :: slots, i, acc =>
    gather_coin_slots coinSet slots (i + 1)
      (if a ∈ coinSet then dset acc a i else acc)

/-- `Curve.get_coin_indexes`: mapping from each requested coin address
found in the pool to a slot index holding it. -/
def get_coin_indexes (pool : List String) (coin_addresses : List String) :
    List (String × Nat) :=
  gather_coin_slots coin_addresses pool 0 []

/-- `CurveData` template from `models.py`. -/
structure CurveData where
  tokenInIndex : Nat
  tokenOutIndex : Nat
  dy : Int
  min_dy : Int
deriving DecidableEq, Repr

/-- Errors raised by `Curve._prepare_swap`: the pool-mismatch
`SwapException("Coins do not exist in pool")`, and a `KeyError`
placeholder for the (unreachable) missing-key dict access. -/
inductive SwapError where
  | poolMismatch
  | keyError
deriving DecidableEq, Repr

/-- Contract reads performed after index resolution. -/
inductive CurveEffect where
  | getDyCall
  | exchangeCall
deriving DecidableEq, Repr

/-- `Curve._prepare_swap`: resolve the two coin indexes, raise the
pool-mismatch error when fewer than 2 resolved, otherwise read the
estimated output `get_dy` and build the `CurveData`.  The second
component lists the contract reads that were attempted. -/
def prepare_swap (pool : List String) (dyFn : Nat → Nat → Int → Int)
    (sell buy : String) (amount min_dy : Int) :
    Except SwapError CurveData × List CurveEffect :=
  let indexes := get_coin_indexes pool [sell, buy]
  if indexes.length ≠ 2 then
    (Except.error SwapError.poolMismatch, [])
  else
    match dget indexes sell, dget indexes buy with
    | some i, some j =>
      let estimated_dy := dyFn i j amount
      (Except.ok ⟨i, j, estimated_dy, min_dy⟩, [CurveEffect.getDyCall])
    | _, _ => (Except.error SwapError.keyError, [])

/-- `Curve.swap`: prepare, then submit the `exchange` contract call. -/
def curve_swap (pool : List String) (dyFn : Nat → Nat → Int → Int)
    (send : CurveData → TransactionResult)
    (sell buy : String) (amount min_dy : Int) :
    Except SwapError TransactionResult × List CurveEffect :=
  match prepare_swap pool dyFn sell buy amount min_dy with
  | (Except.ok swap_data, effects) =>
    (Except.ok (send swap_data), effects ++ [CurveEffect.exchangeCall])
  | (Except.error e, effects) => (Except.error e, effects)

lemma dset_mem {d : List (String × Nat)} {k : String} {v : Nat} {p : String × Nat}
    (h : p ∈ dset d k v) : p = (k, v) ∨ p ∈ d := by
  unfold dset at h
  by_cases hc : dcontains d k
  · rw [if_pos hc] at h
    obtain ⟨q, hq, hfq⟩ := List.mem_map.mp h
    by_cases hqk : q.1 = k
    · rw [if_pos hqk] at hfq
      exact Or.inl hfq.symm
    · rw [if_neg hqk] at hfq
      exact Or.inr (hfq ▸ hq)
  · rw [if_neg hc] at h
    rcases List.mem_append.mp h with h2 | h2
    · exact Or.inr h2
    · simp at h2
      exact Or.inl h2

lemma dcontains_dset_self (d : List (String × Nat)) (k : String) (v : Nat) :
    dcontains (dset d k v) k = true := by
  unfold dset
  by_cases hc : dcontains d k
  · rw [if_pos hc]
    unfold dcontains at hc ⊢
    obtain ⟨q, hq, hqk⟩ := List.any_eq_true.mp hc
    refine List.any_eq_true.mpr ⟨if q.1 = k then (k, v) else q, List.mem_map.mpr ⟨q, hq, rfl⟩, ?_⟩
    rw [if_pos (by simpa using hqk)]
    simp
  · rw [if_neg hc]
    unfold dcontains
    refine List.any_eq_true.mpr ⟨(k, v), List.mem_append.mpr (Or.inr (by simp)), by simp⟩

lemma dcontains_dset_mono {d : List (String × Nat)} {k : String}
    (h : dcontains d k = true) (k2 : String) (v : Nat) :
    dcontains (dset d k2 v) k = true := by
  unfold dset
  by_cases hc : dcontains d k2
  · rw [if_pos hc]
    unfold dcontains at h ⊢
    obtain ⟨q, hq, hqk⟩ := List.any_eq_true.mp h
    refine List.any_eq_true.mpr ⟨if q.1 = k2 then (k2, v) else q,
      List.mem_map.mpr ⟨q, hq, rfl⟩, ?_⟩
    by_cases hq2 : q.1 = k2
    · rw [if_pos hq2]
      simp only [decide_eq_true_eq] at hqk
      simp [← hq2, hqk]
    · rw [if_neg hq2]
      exact hqk
  · rw [if_neg hc]
    unfold dcontains at h ⊢
    obtain ⟨q, hq, hqk⟩ := List.any_eq_true.mp h
    exact List.any_eq_true.mpr ⟨q, List.mem_append.mpr (Or.inl hq), hqk⟩

lemma gather_mono (coinSet : List String) :
    ∀ (slots : List String) (i : Nat) (acc : List (String × Nat)) (k : String),
      dcontains acc k = true →
      dcontains (gather_coin_slots coinSet slots i acc) k = true := by
  intro slots
  induction slots with
  | nil =>
    intro i acc k h
    exact h
  | cons a rest ih =>
    intro i acc k h
    rw [gather_coin_slots]
    by_cases ha : a ∈ coinSet
    · rw [if_pos ha]
      exact ih (i + 1) (dset acc a i) k (dcontains_dset_mono h a i)
    · rw [if_neg ha]
      exact ih (i + 1) acc k h

lemma gather_sound (coinSet : List String) :
    ∀ (slots : List String) (i : Nat) (acc : List (String × Nat)),
      ∀ p ∈ gather_coin_slots coinSet slots i acc,
        p ∈ acc ∨ (i ≤ p.2 ∧ slots.get? (p.2 - i) = some p.1 ∧ p.1 ∈ coinSet) := by
  intro slots
  induction slots with
  | nil =>
    intro i acc p hp
    exact Or.inl hp
  | cons a rest ih =>
    intro i acc p hp
    rw [gather_coin_slots] at hp
    by_cases ha : a ∈ coinSet
    · rw [if_pos ha] at hp
      rcases ih (i + 1) (dset acc a i) p hp with h2 | h2
      · rcases dset_mem h2 with h3 | h3
        · subst h3
          exact Or.inr ⟨le_refl i, by simp, ha⟩
        · exact Or.inl h3
      · refine Or.inr ⟨by omega, ?_, h2.2.2⟩
        obtain ⟨hle, hget, _⟩ := h2
        have : p.2 - i = (p.2 - (i + 1)) + 1 := by omega
        rw [this]
        simpa using hget
    · rw [if_neg ha] at hp
      rcases ih (i + 1) acc p hp with h2 | h2
      · exact Or.inl h2
      · refine Or.inr ⟨by omega, ?_, h2.2.2⟩
        obtain ⟨hle, hget, _⟩ := h2
        have : p.2 - i = (p.2 - (i + 1)) + 1 := by omega
        rw [this]
        simpa using hget

lemma gather_complete (coinSet : List String) :
    ∀ (slots : List String) (i : Nat) (acc : List (String × Nat)) (k : String),
      k ∈ coinSet → k ∈ slots →
      dcontains (gather_coin_slots coinSet slots i acc) k = true := by
  intro slots
  induction slots with
  | nil =>
    intro i acc k hk hmem
    exact absurd hmem (List.not_mem_nil k)
  | cons a rest ih =>
    intro i acc k hk hmem
    rw [gather_coin_slots]
    rcases List.mem_cons.mp hmem with hka | hkr
    · subst hka
      rw [if_pos hk]
      have hbase : dcontains (dset acc k i) k = true := dcontains_dset_self acc k i
      exact gather_mono coinSet rest (i + 1) (dset acc k i) k hbase
    · by_cases ha : a ∈ coinSet
      · rw [if_pos ha]
        exact ih (i + 1) (dset acc a i) k hk hkr
      · rw [if_neg ha]
        exact ih (i + 1) acc k hk hkr

lemma dget_mem {d : List (String × Nat)} {k : String} {v : Nat}
    (h : dget d k = some v) : (k, v) ∈ d := by
  unfold dget at h
  rcases hfind : List.find? (fun p => decide (p.1 = k)) d with _ | q
  · rw [hfind] at h
    exact Option.noConfusion h
  · rw [hfind] at h
    have hq : q ∈ d := List.mem_of_find?_eq_some hfind
    have hqk := List.find?_some hfind
    simp only [decide_eq_true_eq] at hqk
    have hqv : q.2 = v := by simpa using h
    have hqkv : q = (k, v) := by
      cases q
      simp_all
    exact hqkv ▸ hq

lemma dcontains_iff_dget (d : List (String × Nat)) (k : String) :
    dcontains d k = true ↔ ∃ v, dget d k = some v := by
  constructor
  · intro h
    obtain ⟨q, hq, hqk⟩ := List.any_eq_true.mp (by
      unfold dcontains at h
      exact h)
    have hsome : (List.find? (fun p : String × Nat => decide (p.1 = k)) d).isSome := by
      rw [List.find?_isSome]
      exact ⟨q, hq, hqk⟩
    obtain ⟨r, hr⟩ := Option.isSome_iff_exists.mp hsome
    refine ⟨r.2, ?_⟩
    unfold dget
    rw [hr]
    rfl
  · intro hex
    obtain ⟨v, hv⟩ := hex
    have hmem : (k, v) ∈ d := dget_mem hv
    unfold dcontains
    exact List.any_eq_true.mpr ⟨(k, v), hmem, by simp⟩

/-- C6: in a pool, for a requested pair of distinct coins, every
resolved entry maps a requested coin address to a slot index actually
holding that address, and if both requested coins occur among the pool
slots then both are resolved; if fewer than 2 entries resolve, the
Curve swap raises the pool-mismatch error and performs neither the
estimated-output read (`get_dy`) nor the `exchange` call. -/
theorem C6_curve_index_resolution (pool : List String) (sell buy : String) :
    (∀ p, p ∈ get_coin_indexes pool [sell, buy] →
      pool.get? p.2 = some p.1 ∧ p.1 ∈ ([sell, buy] : List String)) ∧
    (sell ∈ pool → buy ∈ pool →
      (∃ i, dget (get_coin_indexes pool [sell, buy]) sell = some i) ∧
      (∃ j, dget (get_coin_indexes pool [sell, buy]) buy = some j)) ∧
    ((get_coin_indexes pool [sell, buy]).length < 2 →
      ∀ dyFn send amount min_dy,
        curve_swap pool dyFn send sell buy amount min_dy =
          (Except.error SwapError.poolMismatch, [])) := by
  refine ⟨?_, ?_, ?_⟩
  · intro p hp
    rcases gather_sound [sell, buy] pool 0 [] p hp with h | h
    · exact absurd h (List.not_mem_nil p)
    · obtain ⟨_, hget, hmem⟩ := h
      exact ⟨by simpa using hget, hmem⟩
  · intro hsell hbuy
    constructor
    · exact (dcontains_iff_dget _ sell).mp
        (gather_complete [sell, buy] pool 0 [] sell (by simp) hsell)
    · exact (dcontains_iff_dget _ buy).mp
        (gather_complete [sell, buy] pool 0 [] buy (by simp) hbuy)
  · intro hlen dyFn send amount min_dy
    have hne : (get_coin_indexes pool [sell, buy]).length ≠ 2 := by omega
    unfold curve_swap prepare_swap
    rw [if_pos hne]

/-- Witness for C6: in the pool `["0xA", "0xB", "0xC"]` the request
`("0xA", "0xC")` resolves both coins (to slots 0 and 2); the request
`("0xA", "0xD")` resolves only one coin, so the swap returns the
pool-mismatch error having attempted no `get_dy` and no `exchange`. -/
theorem C6_curve_index_resolution_witness :
    dget (get_coin_indexes ["0xA", "0xB", "0xC"] ["0xA", "0xC"]) "0xA" = some 0 ∧
    dget (get_coin_indexes ["0xA", "0xB", "0xC"] ["0xA", "0xC"]) "0xC" = some 2 ∧
    curve_swap ["0xA", "0xB", "0xC"] (fun _ _ a => a)
      (fun cd => ⟨TransactionStatus.SUCCESS, toString cd.dy⟩) "0xA" "0xD" 5 0 =
      (Except.error SwapError.poolMismatch, []) := by
  refine ⟨rfl, rfl, ?_⟩
  exact (C6_curve_index_resolution ["0xA", "0xB", "0xC"] "0xA" "0xD").2.2
    (by decide) (fun _ _ a => a)
    (fun cd => ⟨TransactionStatus.SUCCESS, toString cd.dy⟩) 5 0

/-! ## core.py: Arbitrage._swap and Arbitrage.execute

    def _swap(self, sell_coin, swapper, buy_coin_address):
        result = sell_coin.approve(swapper.get_address(), self.amount)
        ... retry loop over sell_coin.approve ...
        if result.status == SUCCESS: ...
        elif result.status == FAILURE: return        # no swap
        else: return                                  # no swap
        result = swapper.swap(...)
        retried = 0
        while result.status != SUCCESS and retried != self.retries:
            retried += 1
            result = self._swapper_1.swap(...)        # NOTE: _swapper_1, not swapper

The retried swap attempts go through `self._swapper_1` regardless of
the `swapper` argument the leg was given; only the initial attempt uses
the leg's own swapper.  `execute` dispatches the two legs
(`(coin1_1, swapper_1)` and `(coin2_2, swapper_2)`) and awaits both
(`asyncio.gather`). -/

/-- Identity of a swapper instance of the `Arbitrage` program
(`_swapper_1` / `_swapper_2`). -/
inductive SwapperId where
  | one
  | two
deriving DecidableEq, Repr

/-- A swapper instance: its identity and the stream of results its
`swap` method produces on the successive invocations of a leg's swap
loop. -/
structure Swapper where
  id : SwapperId
  swapFn : Nat → TransactionResult

/-- Observable outcome of one arbitrage leg (`Arbitrage._swap`): the
approval loop's call count and final result, the swapper instance used
by each swap invocation (in order), and the swap loop's final result
(`Option.none` when the leg returned before swapping). -/
structure LegRun where
  approveCalls : Nat
  approveResult : TransactionResult
  swapCalls : List SwapperId
  swapResult : Option TransactionResult
deriving DecidableEq, Repr

/-- `Arbitrage._swap` for one leg: retry-wrapped approval via the leg's
own coin; on a final non-`SUCCESS` approval the leg returns without
swapping; otherwise the initial swap goes through the leg's `swapper`
argument and every retried swap goes through `_swapper_1` (`sw1`). -/
def swapLeg (approveFn : Nat → TransactionResult) (swapper : Swapper)
    (sw1 : Swapper) (retries : Nat) : LegRun :=
  let ares := retryLoop approveFn retries
  if ares.1.status = TransactionStatus.SUCCESS then
    let sres := retryLoop
      (fun n => if n = 0 then swapper.swapFn 0 else sw1.swapFn n) retries
    { approveCalls := ares.2, approveResult := ares.1,
      swapCalls := swapper.id :: List.replicate (sres.2 - 1) sw1.id,
      swapResult := some sres.1 }
  else
    { approveCalls := ares.2, approveResult := ares.1,
      swapCalls := [], swapResult := Option.none }

/-- `Arbitrage.execute`: dispatch both legs and await both
(`asyncio.gather` join-all); leg 1 is `(coin1_1, _swapper_1)`, leg 2 is
`(coin2_2, _swapper_2)`, and `_swapper_1` is what the retry path of
either leg resubmits through. -/
def arbExecute (approve1 approve2 : Nat → TransactionResult)
    (sw1 sw2 : Swapper) (retries : Nat) : LegRun × LegRun :=
  (swapLeg approve1 sw1 sw1 retries, swapLeg approve2 sw2 sw1 retries)

/-- C3: whenever a leg reaches its swap phase, the first swap
invocation uses the leg's own swapper argument and every retried swap
invocation uses the first swapper instance, regardless of which swapper
the leg was given. -/
theorem C3_swap_retry_uses_first_swapper (approveFn : Nat → TransactionResult)
    (swapper sw1 : Swapper) (R : Nat)
    (h : (swapLeg approveFn swapper sw1 R).swapCalls ≠ []) :
    (swapLeg approveFn swapper sw1 R).swapCalls.head? = some swapper.id ∧
    ∀ s ∈ (swapLeg approveFn swapper sw1 R).swapCalls.tail, s = sw1.id := by
  unfold swapLeg at h ⊢
  by_cases hs : (retryLoop approveFn R).1.status = TransactionStatus.SUCCESS
  · rw [if_pos hs] at h ⊢
    refine ⟨rfl, ?_⟩
    intro s hsmem
    simp only [List.tail_cons] at hsmem
    exact List.eq_of_mem_replicate hsmem
  · rw [if_neg hs] at h
    exact absurd rfl h

/-- Witness for C3: leg given `_swapper_2` with an always-failing swap
and retries = 2 — the swap call trace is
`[two, one, one]`: initial call through the leg's swapper, both retries
through `_swapper_1`. -/
theorem C3_swap_retry_uses_first_swapper_witness :
    (swapLeg (fun _ => ⟨TransactionStatus.SUCCESS, "0xa"⟩)
        ⟨SwapperId.two, fun _ => ⟨TransactionStatus.FAILURE, "0xs"⟩⟩
        ⟨SwapperId.one, fun _ => ⟨TransactionStatus.FAILURE, "0xf"⟩⟩ 2).swapCalls =
      [SwapperId.two, SwapperId.one, SwapperId.one] ∧
    (swapLeg (fun _ => ⟨TransactionStatus.SUCCESS, "0xa"⟩)
        ⟨SwapperId.two, fun _ => ⟨TransactionStatus.FAILURE, "0xs"⟩⟩
        ⟨SwapperId.one, fun _ => ⟨TransactionStatus.FAILURE, "0xf"⟩⟩ 2).swapCalls.head? =
      some SwapperId.two ∧
    ∀ s ∈ (swapLeg (fun _ => ⟨TransactionStatus.SUCCESS, "0xa"⟩)
        ⟨SwapperId.two, fun _ => ⟨TransactionStatus.FAILURE, "0xs"⟩⟩
        ⟨SwapperId.one, fun _ => ⟨TransactionStatus.FAILURE, "0xf"⟩⟩ 2).swapCalls.tail,
      s = SwapperId.one := by
  have h := C3_swap_retry_uses_first_swapper
    (fun _ => ⟨TransactionStatus.SUCCESS, "0xa"⟩)
    ⟨SwapperId.two, fun _ => ⟨TransactionStatus.FAILURE, "0xs"⟩⟩
    ⟨SwapperId.one, fun _ => ⟨TransactionStatus.FAILURE, "0xf"⟩⟩ 2 (by decide)
  exact ⟨by decide, h.1, h.2⟩

/-- C4 counterexample: with identical inputs for the second leg (its
approval stream, its own swapper, the retry budget), the second leg's
outcome nevertheless changes when only the *first* leg's swapper
behaviour changes — because swap retries are resubmitted through the
first swapper instance, the second leg does read the first leg's
swapper, contradicting "neither leg reads or mutates the other leg's
state". -/
theorem C4_counterexample_leg2_reads_swapper1 :
    (arbExecute (fun _ => ⟨TransactionStatus.SUCCESS, "0xa1"⟩)
        (fun _ => ⟨TransactionStatus.SUCCESS, "0xa2"⟩)
        ⟨SwapperId.one, fun _ => ⟨TransactionStatus.SUCCESS, "0x1"⟩⟩
        ⟨SwapperId.two, fun _ => ⟨TransactionStatus.FAILURE, "0x2"⟩⟩ 1).2 ≠
    (arbExecute (fun _ => ⟨TransactionStatus.SUCCESS, "0xa1"⟩)
        (fun _ => ⟨TransactionStatus.SUCCESS, "0xa2"⟩)
        ⟨SwapperId.one, fun _ => ⟨TransactionStatus.FAILURE, "0x1f"⟩⟩
        ⟨SwapperId.two, fun _ => ⟨TransactionStatus.FAILURE, "0x2"⟩⟩ 1).2 := by
  decide

/-- C4 (amended): a leg whose final approval outcome is not `SUCCESS`
returns without any swap invocation; the orchestrator awaits both legs
and returns both their outcomes (join-all, not fail-fast), and the
second leg's outcome is unaffected by the first leg's approval stream —
but the legs do share the first swapper instance on swap retries. -/
theorem C4_legs_join_and_approval_gates_swap
    (approve1 approve2 : Nat → TransactionResult) (sw1 sw2 : Swapper) (R : Nat) :
    ((swapLeg approve2 sw2 sw1 R).approveResult.status ≠ TransactionStatus.SUCCESS →
      (swapLeg approve2 sw2 sw1 R).swapCalls = [] ∧
      (swapLeg approve2 sw2 sw1 R).swapResult = Option.none) ∧
    (arbExecute approve1 approve2 sw1 sw2 R =
      (swapLeg approve1 sw1 sw1 R, swapLeg approve2 sw2 sw1 R)) ∧
    (∀ approve1a : Nat → TransactionResult,
      (arbExecute approve1a approve2 sw1 sw2 R).2 =
      (arbExecute approve1 approve2 sw1 sw2 R).2) := by
  refine ⟨?_, rfl, fun _ => rfl⟩
  intro hfail
  unfold swapLeg at hfail ⊢
  by_cases hs : (retryLoop approve2 R).1.status = TransactionStatus.SUCCESS
  · rw [if_pos hs] at hfail
    exact absurd hs hfail
  · rw [if_neg hs]
    exact ⟨rfl, rfl⟩

/-- Witness for C4 (amended): leg 2's approvals always fail
(`NOT_VERIFIED`), so with retries = 1 it makes 2 approval calls and no
swap call, while the orchestrator still reports both legs' outcomes. -/
theorem C4_legs_join_and_approval_gates_swap_witness :
    (swapLeg (fun _ => ⟨TransactionStatus.NOT_VERIFIED, "0xa2"⟩)
        ⟨SwapperId.two, fun _ => ⟨TransactionStatus.SUCCESS, "0x2"⟩⟩
        ⟨SwapperId.one, fun _ => ⟨TransactionStatus.SUCCESS, "0x1"⟩⟩ 1).swapCalls = [] ∧
    (swapLeg (fun _ => ⟨TransactionStatus.NOT_VERIFIED, "0xa2"⟩)
        ⟨SwapperId.two, fun _ => ⟨TransactionStatus.SUCCESS, "0x2"⟩⟩
        ⟨SwapperId.one, fun _ => ⟨TransactionStatus.SUCCESS, "0x1"⟩⟩ 1).swapResult =
      Option.none ∧
    arbExecute (fun _ => ⟨TransactionStatus.SUCCESS, "0xa1"⟩)
        (fun _ => ⟨TransactionStatus.NOT_VERIFIED, "0xa2"⟩)
        ⟨SwapperId.one, fun _ => ⟨TransactionStatus.SUCCESS, "0x1"⟩⟩
        ⟨SwapperId.two, fun _ => ⟨TransactionStatus.SUCCESS, "0x2"⟩⟩ 1 =
      (swapLeg (fun _ => ⟨TransactionStatus.SUCCESS, "0xa1"⟩)
        ⟨SwapperId.one, fun _ => ⟨TransactionStatus.SUCCESS, "0x1"⟩⟩
        ⟨SwapperId.one, fun _ => ⟨TransactionStatus.SUCCESS, "0x1"⟩⟩ 1,
       swapLeg (fun _ => ⟨TransactionStatus.NOT_VERIFIED, "0xa2"⟩)
        ⟨SwapperId.two, fun _ => ⟨TransactionStatus.SUCCESS, "0x2"⟩⟩
        ⟨SwapperId.one, fun _ => ⟨TransactionStatus.SUCCESS, "0x1"⟩⟩ 1) := by
  have h := C4_legs_join_and_approval_gates_swap
    (fun _ => ⟨TransactionStatus.SUCCESS, "0xa1"⟩)
    (fun _ => ⟨TransactionStatus.NOT_VERIFIED, "0xa2"⟩)
    ⟨SwapperId.one, fun _ => ⟨TransactionStatus.SUCCESS, "0x1"⟩⟩
    ⟨SwapperId.two, fun _ => ⟨TransactionStatus.SUCCESS, "0x2"⟩⟩ 1
  obtain ⟨hcalls, hres⟩ := h.1 (by decide)
  exact ⟨hcalls, hres, h.2.1⟩

end BlockchainRpc
